import Mathlib

/-!
# cubefs: data-partition auto-fix monitor and drive multipart handlers

A shallow embedding of

* `schedulenode/checktool/cfs/fix_datapartition.go`
  (`doFixBadDataPartition`, `isNeedFix`), and
* `apinode/drive/api_multipart.go`
  (`handleMultipartUploads`, `handleMultipartPart`, `handleMultipartList`,
  `handleMultipartAbort`),

followed by the properties established for them.

Conventions.  Go strings are lists of code points (`String.data`); substring
search on valid UTF-8 agrees bytewise and codepointwise.  Unsigned 64-bit
values are `Nat` with explicit reduction modulo `2^64` wherever the Go code can
wrap.  A Go run-time panic is an explicit outcome.  Calls that leave the process
(control plane, volume engine, crypto, sleeping) are appended to a trace.
-/

set_option autoImplicit false

namespace Cfs

/-! ## Go standard-library string functions used by the scan -/

/-- Go `strings.Cut(s, sep)` for a non-empty `sep`: the text before and after the
first occurrence of `sep`, or `none` when `sep` does not occur
(`strings.Index(s, sep) < 0`). -/
def cut (sep : List Char) : List Char → Option (List Char × List Char)
  | [] => if sep.isEmpty then some ([], []) else none
  | c :: cs =>
    if sep.isPrefixOf (c :: cs) then some ([], (c :: cs).drop sep.length)
    else
      match cut sep cs with
      | some (a, b) => some (c :: a, b)
      | none => none

/-- Go `strings.Contains(s, substr)`, that is `strings.Index(s, substr) >= 0`. -/
def contains (s substr : List Char) : Bool :=
  (cut substr s).isSome

/-- The loop of Go `strings.genSplit` for a non-empty separator: cut at the first
occurrence of `sep`, keep the part before it, continue with the part after it.
`fuel` bounds the number of cuts (Go uses `Count(s, sep)`). -/
def splitLoop (sep : List Char) : Nat → List Char → List (List Char)
  | 0, s => [s]
  | fuel + 1, s =>
    match cut sep s with
    | none => [s]
    | some (a, b) => a :: splitLoop sep fuel b

/-- Go `strings.Split(s, sep)` for a non-empty `sep` (the only use in the source).
Every cut consumes at least one character, so `s.length` cuts are enough. -/
def split (s sep : List Char) : List (List Char) :=
  splitLoop sep s.length s

/-- The two error kinds of Go `strconv.ParseUint`. -/
inductive NumError where
  | ErrSyntax
  | ErrRange
  deriving DecidableEq, Repr

/-- The value `1<<64 - 1`. -/
def maxUint64 : Nat := 2 ^ 64 - 1

/-- The digit loop of Go `strconv.ParseUint(s, 10, 64)`; `n` is the `uint64`
accumulator.  `cutoff = maxUint64/10 + 1`, `maxVal = 1<<64 - 1`.  `Char.isDigit c`
is `'0' <= c && c <= '9'`.  A byte that is not `0`..`9` is either a letter (digit value at least 10, so `d >= base`) or
falls to the `default` case; both return a syntax error. -/
def parseUintLoop : List Char → Nat → Except NumError Nat
  | [], n => .ok n
  | c :: cs, n =>
    if c.isDigit then
      let d := c.toNat - '0'.toNat
      if n ≥ maxUint64 / 10 + 1 then .error .ErrRange
      else
        let n10 := (n * 10) % 2 ^ 64
        let n1 := (n10 + d) % 2 ^ 64
        if n1 < n10 ∨ n1 > maxUint64 then .error .ErrRange
        else parseUintLoop cs n1
    else .error .ErrSyntax

/-- Go `strconv.ParseUint(s, 10, 64)`. -/
def parseUint (s : List Char) : Except NumError Nat :=
  if s.isEmpty then .error .ErrSyntax else parseUintLoop s 0

/-! ## Alarm scan of `doFixBadDataPartition` (lines 58-77) -/

/-- An `ump.AlarmRecord`; only `Content` is read. -/
structure AlarmRecord where
  Content : String
  deriving DecidableEq, Repr

/-- The literal looked for by `strings.Contains`. -/
def fixMarker : List Char := "FIX DataPartition replicaNum".data

/-- The literal the content is split on. -/
def partitionIDKey : List Char := "partitionID:".data

/-- The key set of `idsMap : map[uint64]bool`, kept without duplicates. -/
abbrev IdsMap := List Nat

/-- Outcome of the body of the `range alarmRecords.Records` loop for one record. -/
inductive ScanStep where
  /-- The record does not contain the marker. -/
  | notMarked
  /-- The body panicked: `strings.Split(...)[1]` is out of range. -/
  | panicked
  /-- `ParseUint` failed: the error is logged, `continue`. -/
  | parseFailed (e : NumError)
  /-- `idsMap[pid] = true`. -/
  | found (pid : Nat)
  deriving DecidableEq, Repr

/-- Lines 64-72 for one record. -/
def scanRecord (r : AlarmRecord) : ScanStep :=
  if contains r.Content.data fixMarker then
    match (split r.Content.data partitionIDKey)[1]? with
    | none => .panicked
    | some tmp =>
      match (split tmp [' '])[0]? with
      | none => .panicked
      | some pidStr =>
        match parseUint pidStr with
        | .error e => .parseFailed e
        | .ok pid => .found pid
  else .notMarked

/-- Lines 63-74: the whole loop, starting from the map `ids`.  `none` is a panic,
which leaves the loop (and the function, through the deferred `recover`). -/
def scanRecords : List AlarmRecord → IdsMap → Option IdsMap
  | [], ids => some ids
  | r :: rs, ids =>
    match scanRecord r with
    | .notMarked => scanRecords rs ids
    | .panicked => none
    | .parseFailed _ => scanRecords rs ids
    | .found pid => scanRecords rs (ids.insert pid)

/-! ## Control-plane data read by the monitor -/

/-- A `proto.DataReplica`; the monitor reads the address and the leader flag. -/
structure DataReplica where
  Addr : String
  IsLeader : Bool
  deriving DecidableEq, Repr

/-- A `proto.DataPartitionInfo`, reduced to the fields the monitor reads. -/
structure DataPartitionInfo where
  ReplicaNum : Nat
  Hosts : List String
  Replicas : List DataReplica
  deriving DecidableEq, Repr

/-- A `proto.DataNodeInfo`, reduced to the fields the monitor reads.  The record
arrives JSON-encoded, which has no NaN or infinity, so `UsageRatio` is a finite
`float64`, hence a rational number, and `>` on it is the order of `ℚ`. -/
structure DataNodeInfo where
  Addr : String
  ZoneName : String
  IsActive : Bool
  UsageRatio : ℚ
  deriving DecidableEq, Repr

/-- A `proto.NodeView`; only the address is read. -/
structure NodeView where
  Addr : String
  deriving DecidableEq, Repr

/-- A `proto.NodeSetView`; only the data nodes are read. -/
structure NodeSetView where
  DataNodes : List NodeView
  deriving DecidableEq, Repr

/-- A `proto.ZoneView`; `NodeSet` lists the values of the Go map in the order the
`range` loop visits them. -/
structure ZoneView where
  Name : String
  NodeSet : List NodeSetView
  deriving DecidableEq, Repr

/-- A `proto.TopologyView`. -/
structure TopologyView where
  Zones : List ZoneView
  deriving DecidableEq, Repr

/-- Calls that leave the monitor, in the order they are made.  `GetDataNode`
carries the record the control plane answered with (`none` for an error). -/
inductive Event where
  | GetAlarmRecords
  | GetTopology
  | GetDataPartition (partition : Nat)
  | Sleep (seconds : Nat)
  | GetDataNode (addr : String) (info : Option DataNodeInfo)
  | AddDataLearner (partition : Nat) (addr : String) (autoPromote : Bool) (threshold : Nat)
  | WarningBySpecialUMPKey (msg : String)
  /-- The deferred `recover()` caught a panic. -/
  | Recovered
  deriving DecidableEq, Repr

/-- Everything outside the monitor, as a deterministic machine over a state `σ`:
the alarm service, the master's admin and node APIs, `math/rand`, and the order
in which the Go runtime yields the keys of `idsMap`.  Each call returns its
answer and the next state, so answers may change from call to call. -/
structure World (σ : Type) where
  GetAlarmRecords : σ → Except String (List AlarmRecord) × σ
  GetTopology : σ → Except String TopologyView × σ
  GetDataPartition : Nat → σ → Except String DataPartitionInfo × σ
  GetDataNode : String → σ → Except String DataNodeInfo × σ
  AddDataLearner : Nat → String → Bool → Nat → σ → Option String × σ
  /-- A raw random number; `rand.Intn(n)` is this number modulo `n`. -/
  rand : σ → Nat × σ
  /-- The order in which `range idsMap` yields the keys. -/
  rangeOrder : IdsMap → List Nat

/-- The control-plane domain. -/
def cfsDomain : String := "sparkchubaofs.jd.local"

/-! ## `isNeedFix` (lines 145-186) -/

/-- The four named results of `isNeedFix`; `err = none` is Go's `nil`. -/
structure NeedFix where
  fix : Bool
  extraHost : String
  remainHost : String
  err : Option String
  deriving DecidableEq, Repr

/-- Lines 157-162: `leader` after the loop over `dp.Replicas`. -/
def leaderFlag (replicas : List DataReplica) : Bool :=
  replicas.foldl (fun leader r => if r.IsLeader then true else leader) false

/-- Lines 176-182: the address of the first replica that differs from
`dp.Hosts[0]`; the zero value `""` when the loop finds none. -/
def findExtraHost (host0 : String) : List DataReplica → String
  | [] => ""
  | replica :: rest =>
    if replica.Addr = host0 then findExtraHost host0 rest else replica.Addr

/-- The function `isNeedFix`: its results, the next world state and the calls it
made. -/
def isNeedFix {σ : Type} (W : World σ) (partition : Nat) (s : σ) :
    NeedFix × σ × List Event :=
  match W.GetDataPartition partition s with
  | (.error e, s1) => (⟨false, "", "", some e⟩, s1, [.GetDataPartition partition])
  | (.ok dp, s1) =>
    if dp.ReplicaNum ≠ 2 then
      (⟨false, "", "", none⟩, s1, [.GetDataPartition partition])
    else if dp.Hosts.length ≠ 1 then
      (⟨false, "", "", none⟩, s1, [.GetDataPartition partition])
    else if !leaderFlag dp.Replicas then
      (⟨false, "", "", some ("partition:" ++ toString partition ++ " no leader")⟩, s1,
        [.GetDataPartition partition])
    else
      match W.GetDataPartition partition s1 with
      | (.error e, s2) =>
        (⟨false, "", "", some e⟩, s2,
          [.GetDataPartition partition, .Sleep 20, .GetDataPartition partition])
      | (.ok dp2, s2) =>
        if dp2.Hosts.length ≠ 1 then
          (⟨false, "", "", none⟩, s2,
            [.GetDataPartition partition, .Sleep 20, .GetDataPartition partition])
        else
          let host0 := dp2.Hosts.headD ""
          (⟨true, findExtraHost host0 dp2.Replicas, host0, none⟩, s2,
            [.GetDataPartition partition, .Sleep 20, .GetDataPartition partition])

/-! ## The repair loop of `doFixBadDataPartition` (lines 84-141) -/

/-- Lines 103-111: the data nodes of every node set of every zone named
`zoneName`. -/
def zoneNodeViews (topologyView : TopologyView) (zoneName : String) : List NodeView :=
  (topologyView.Zones.filter (fun zone => zone.Name = zoneName)).flatMap
    (fun zone => zone.NodeSet.flatMap (fun ns => ns.DataNodes))

/-- How the probe loop of one partition ended. -/
inductive ProbeEnd where
  /-- All tries were used without an `AddDataLearner` call. -/
  | exhausted
  /-- `AddDataLearner` succeeded: warning sent, `break`. -/
  | added
  /-- `AddDataLearner` failed: `break`. -/
  | addFailed
  /-- The loop panicked: `rand.Intn` with a non-positive argument, or an index out of range. -/
  | panicked
  deriving DecidableEq, Repr

/-- The Go constant `0.8` of line 127 as the `float64` it is compared as: the double
nearest to 4/5, bits `0x3FE999999999999A`, that is `3602879701896397 / 2^52`.  A
node that reports usage 0.8 carries exactly this value. -/
def usageLimit : ℚ := 3602879701896397 / 4503599627370496

/-- The success notification text. -/
def fixedMessage (partition : Nat) (addr : String) : String :=
  "Domain[" ++ cfsDomain ++ "] fix one replica partition:" ++ toString partition ++
    " success, add learner:" ++ addr

/-- Prefix the calls `es` to an outcome. -/
def emit {α σ : Type} (es : List Event) (r : α × σ × List Event) : α × σ × List Event :=
  (r.1, r.2.1, es ++ r.2.2)

/-- Lines 113-140: the probe loop with `tries` iterations left. -/
def probeLoop {σ : Type} (W : World σ) (allNodeViews : List NodeView) (partition : Nat)
    (extraHost remainHost : String) : Nat → σ → ProbeEnd × σ × List Event
  | 0, s => (.exhausted, s, [])
  | tries + 1, s =>
    -- `rand.Intn(len(allNodeViews) - 1)` panics when its argument is `<= 0`
    if allNodeViews.length ≤ 1 then (.panicked, s, [])
    else
      let index := (W.rand s).1 % (allNodeViews.length - 1)
      let s1 := (W.rand s).2
      match allNodeViews[index]? with
      | none => (.panicked, s1, [])
      | some destNode =>
        if destNode.Addr = extraHost ∨ destNode.Addr = remainHost then
          probeLoop W allNodeViews partition extraHost remainHost tries s1
        else
          match W.GetDataNode destNode.Addr s1 with
          | (.error _, s2) =>
            emit [.GetDataNode destNode.Addr none]
              (probeLoop W allNodeViews partition extraHost remainHost tries s2)
          | (.ok destNodeView, s2) =>
            if destNodeView.UsageRatio > usageLimit then
              emit [.GetDataNode destNode.Addr (some destNodeView)]
                (probeLoop W allNodeViews partition extraHost remainHost tries s2)
            else if !destNodeView.IsActive then
              emit [.GetDataNode destNode.Addr (some destNodeView)]
                (probeLoop W allNodeViews partition extraHost remainHost tries s2)
            else
              match W.AddDataLearner partition destNode.Addr true 90 s2 with
              | (some _, s3) =>
                (.addFailed, s3,
                  [.GetDataNode destNode.Addr (some destNodeView),
                   .AddDataLearner partition destNode.Addr true 90])
              | (none, s3) =>
                (.added, s3,
                  [.GetDataNode destNode.Addr (some destNodeView),
                   .AddDataLearner partition destNode.Addr true 90,
                   .WarningBySpecialUMPKey (fixedMessage partition destNode.Addr)])

/-- The number of probes per partition (`retry := 20`). -/
def retry : Nat := 20

/-- Lines 85-140: the body of the `range idsMap` loop for one partition.  The
first component says whether the body panicked. -/
def fixPartition {σ : Type} (W : World σ) (topologyView : TopologyView) (partition : Nat)
    (s : σ) : Bool × σ × List Event :=
  match isNeedFix W partition s with
  | (r, s1, es) =>
    if r.err.isSome then (false, s1, es)
    else if !r.fix then (false, s1, es)
    else
      match W.GetDataNode r.extraHost s1 with
      | (.error _, s2) => (false, s2, es ++ [.GetDataNode r.extraHost none])
      | (.ok dn, s2) =>
        match probeLoop W (zoneNodeViews topologyView dn.ZoneName) partition
            r.extraHost r.remainHost retry s2 with
        | (e, s3, es3) =>
          (decide (e = .panicked), s3, es ++ [.GetDataNode r.extraHost (some dn)] ++ es3)

/-- Lines 84-141: the `range idsMap` loop over the keys in the order `partitions`.
A panic in one body leaves the loop. -/
def fixLoop {σ : Type} (W : World σ) (topologyView : TopologyView) :
    List Nat → σ → Bool × σ × List Event
  | [], s => (false, s, [])
  | partition :: rest, s =>
    match fixPartition W topologyView partition s with
    | (true, s1, es) => (true, s1, es)
    | (false, s1, es) => emit es (fixLoop W topologyView rest s1)

/-- The function `doFixBadDataPartition`: one cycle.  Returns the next world state
and the calls made; a panic anywhere ends the cycle in the deferred `recover`. -/
def doFixBadDataPartition {σ : Type} (W : World σ) (s : σ) : σ × List Event :=
  match W.GetAlarmRecords s with
  | (.error _, s1) => (s1, [.GetAlarmRecords])
  | (.ok records, s1) =>
    match scanRecords records [] with
    | none => (s1, [.GetAlarmRecords, .Recovered])
    | some idsMap =>
      if idsMap.length = 0 then (s1, [.GetAlarmRecords])
      else
        match W.GetTopology s1 with
        | (.error _, s2) => (s2, [.GetAlarmRecords, .GetTopology])
        | (.ok topologyView, s2) =>
          match fixLoop W topologyView (W.rangeOrder idsMap) s2 with
          | (true, s3, es) => (s3, [.GetAlarmRecords, .GetTopology] ++ es ++ [.Recovered])
          | (false, s3, es) => (s3, [.GetAlarmRecords, .GetTopology] ++ es)

/-- The number a string of decimal digits denotes, most significant digit first. -/
def decimalValue (ds : List Char) : Nat :=
  ds.foldl (fun n c => n * 10 + (c.toNat - '0'.toNat)) 0

/-! ## Concrete worlds used to evaluate the monitor -/

/-- A marker record that has no `partitionID:` in it. -/
def alarmNoKey : AlarmRecord :=
  ⟨"cluster spark FIX DataPartition replicaNum is 2 hosts 1"⟩

/-- A marker record whose identifier is not a number. -/
def alarmBadNumber : AlarmRecord :=
  ⟨"cluster spark FIX DataPartition replicaNum is 2 partitionID:abc hosts 1"⟩

/-- A world whose partition detail is always `dp` and in which nothing else is
ever answered. -/
def constWorld (dp : DataPartitionInfo) : World Unit where
  GetAlarmRecords := fun s => (.error "unused", s)
  GetTopology := fun s => (.error "unused", s)
  GetDataPartition := fun _ s => (.ok dp, s)
  GetDataNode := fun _ s => (.error "unused", s)
  AddDataLearner := fun _ _ _ _ s => (some "unused", s)
  rand := fun s => (0, s)
  rangeOrder := fun ids => ids

/-- Two configured replicas, one effective host, both replicas marked leader. -/
def twoLeaders : DataPartitionInfo :=
  ⟨2, ["10.0.0.1:6000"], [⟨"10.0.0.1:6000", true⟩, ⟨"10.0.0.2:6000", true⟩]⟩

/-- Two configured replicas, one effective host, and the only replica the master
still lists is the one on that host. -/
def soleReplica : DataPartitionInfo :=
  ⟨2, ["10.0.0.1:6000"], [⟨"10.0.0.1:6000", true⟩]⟩

/-- Three configured replicas, one effective host. -/
def threeReplicas : DataPartitionInfo :=
  ⟨3, ["10.0.0.1:6000"], [⟨"10.0.0.1:6000", true⟩, ⟨"10.0.0.2:6000", false⟩]⟩

/-- Two configured replicas, one effective host, no leader. -/
def leaderless : DataPartitionInfo :=
  ⟨2, ["10.0.0.1:6000"], [⟨"10.0.0.1:6000", false⟩, ⟨"10.0.0.2:6000", false⟩]⟩

/-- The alarm text the master writes for partition `1`. -/
def alarmOne : AlarmRecord :=
  ⟨"cluster spark FIX DataPartition replicaNum is 2 partitionID:1 hosts 1"⟩

/-- The alarm text the master writes for partition `2`. -/
def alarmTwo : AlarmRecord :=
  ⟨"cluster spark FIX DataPartition replicaNum is 2 partitionID:2 hosts 1"⟩

/-- The data nodes of zone `z2`. -/
def zoneTwoNodes : List NodeView := [⟨"dn5:6000"⟩, ⟨"dn6:6000"⟩, ⟨"dn7:6000"⟩]

/-- A cluster with two degraded partitions.  Partition `1` keeps host `dn1` and
has lost `dn2`, the only data node of zone `z1`.  Partition `2` keeps host `dn4`
and has lost `dn5` in zone `z2`, which also holds the healthy nodes `dn6` and
`dn7`.  `order` is the order in which `range idsMap` yields the keys. -/
def twoZoneWorld (order : IdsMap → List Nat) : World Unit where
  GetAlarmRecords := fun s => (.ok [alarmOne, alarmTwo], s)
  GetTopology := fun s =>
    (.ok ⟨[⟨"z1", [⟨[⟨"dn2:6000"⟩]⟩]⟩, ⟨"z2", [⟨zoneTwoNodes⟩]⟩]⟩, s)
  GetDataPartition := fun partition s =>
    if partition = 1 then
      (.ok ⟨2, ["dn1:6000"], [⟨"dn1:6000", true⟩, ⟨"dn2:6000", false⟩]⟩, s)
    else if partition = 2 then
      (.ok ⟨2, ["dn4:6000"], [⟨"dn4:6000", true⟩, ⟨"dn5:6000", false⟩]⟩, s)
    else (.error "data partition not exists", s)
  GetDataNode := fun addr s =>
    if addr = "dn2:6000" then (.ok ⟨addr, "z1", false, 0⟩, s)
    else if addr = "dn5:6000" then (.ok ⟨addr, "z2", false, 0⟩, s)
    else if addr = "dn6:6000" then (.ok ⟨addr, "z2", true, 1 / 2⟩, s)
    else if addr = "dn7:6000" then (.ok ⟨addr, "z2", true, 1 / 4⟩, s)
    else (.error "data node not exists", s)
  AddDataLearner := fun _ _ _ _ s => (none, s)
  rand := fun s => (1, s)
  rangeOrder := order

/-- The record fetched for `dn6` in `twoZoneWorld`. -/
def dnSix : DataNodeInfo := ⟨"dn6:6000", "z2", true, 1 / 2⟩

/-- Every `AddDataLearner` call in `es` is for `partition`, auto-promoting with
threshold 90, targets a node of `allNodeViews` other than the two hosts, and
directly follows the fetch of that node's record, which is active with usage
ratio at most 0.8. -/
def Vetted (allNodeViews : List NodeView) (partition : Nat) (extraHost remainHost : String)
    (es : List Event) : Prop :=
  ∀ (pre post : List Event) (p : Nat) (addr : String) (ap : Bool) (th : Nat),
    es = pre ++ Event.AddDataLearner p addr ap th :: post →
      addr ≠ extraHost ∧ addr ≠ remainHost ∧
      p = partition ∧ ap = true ∧ th = 90 ∧
      (∃ node ∈ allNodeViews, node.Addr = addr) ∧
      ∃ info : DataNodeInfo,
        pre.getLast? = some (Event.GetDataNode addr (some info)) ∧
        info.IsActive = true ∧ info.UsageRatio ≤ usageLimit

/-- The `AddDataLearner` call for partition `p` on `addr`, made after the calls
`pre`, is vetted: the candidate `p` was verified by `isNeedFix` in some world state
`s0` with `fix = true`, `addr` differs from the extra host and from the remaining
host that this verification returned, and the call directly follows the fetch of
the record of `addr`, which is active with usage ratio at most 0.8. -/
def CallVetted {σ : Type} (W : World σ) (p : Nat) (addr : String) (pre : List Event) :
    Prop :=
  ∃ s0 : σ,
    (isNeedFix W p s0).1.fix = true ∧
    addr ≠ (isNeedFix W p s0).1.extraHost ∧
    addr ≠ (isNeedFix W p s0).1.remainHost ∧
    ∃ info : DataNodeInfo,
      pre.getLast? = some (Event.GetDataNode addr (some info)) ∧
      info.IsActive = true ∧ info.UsageRatio ≤ usageLimit

/-- The cluster of `twoZoneWorld` with the alarm service answering `records`. -/
def alarmWorld (records : List AlarmRecord) : World Unit :=
  { twoZoneWorld (fun ids => ids) with GetAlarmRecords := fun s => (.ok records, s) }

/-- A world in which every data node is active in zone `z2` and reports the usage
ratio `usage`, and every `AddDataLearner` succeeds. -/
def usageWorld (usage : ℚ) : World Unit where
  GetAlarmRecords := fun s => (.error "unused", s)
  GetTopology := fun s => (.error "unused", s)
  GetDataPartition := fun _ s => (.error "unused", s)
  GetDataNode := fun addr s => (.ok ⟨addr, "z2", true, usage⟩, s)
  AddDataLearner := fun _ _ _ _ s => (none, s)
  rand := fun s => (1, s)
  rangeOrder := fun ids => ids

end Cfs

namespace Drive

/-! ## `apinode/drive/api_multipart.go` -/

/-- Modelled from the spec: `sdk.Error` values (package `apinode/sdk`, not part of
the two source files).  `ErrBadRequest` is the generic "bad request"
(InvalidArgument) error, `Extend e detail` is `e.Extend(detail)`, the same error
extended with a message, `ExtendErr e cause` is `e.Extend(cause)` for an error
`cause`, and `other` stands for every other error value a callee returns. -/
inductive Error where
  | ErrBadRequest
  | Extend (base : Error) (detail : String)
  | ExtendErr (base : Error) (cause : Error)
  | other (msg : String)
  deriving DecidableEq, Repr

/-- A `FilePath`: a string. -/
abbrev FilePath := String

/-- A `FileID`: a `uint64`. -/
abbrev FileID := Nat

/-- A `UserID`. -/
abbrev UserID := String

/-- Extended attributes (`map[string]string`), as the list of its entries. -/
abbrev Properties := List (String × String)

/-- The type `MPPart`. -/
structure MPPart where
  PartNumber : Nat
  Size : Int
  MD5 : String
  deriving DecidableEq, Repr

/-- The type `ArgsMPUploads`. -/
structure ArgsMPUploads where
  Path : FilePath
  UploadID : String
  FileID : FileID
  deriving DecidableEq, Repr

/-- The type `ArgsMPUpload`; `PartNumber` is a `uint16`. -/
structure ArgsMPUpload where
  Path : FilePath
  UploadID : String
  PartNumber : Nat
  deriving DecidableEq, Repr

/-- The type `ArgsMPList`; `Count` is a Go `int` (64 bits). -/
structure ArgsMPList where
  Path : FilePath
  UploadID : String
  Marker : FileID
  Count : Int
  deriving DecidableEq, Repr

/-- The type `ArgsMPAbort`. -/
structure ArgsMPAbort where
  Path : FilePath
  UploadID : String
  deriving DecidableEq, Repr

/-- An `sdk.Part`: `ID` is a `uint16`, `Size` a `uint64`. -/
structure Part where
  ID : Nat
  Size : Nat
  MD5 : String
  deriving DecidableEq, Repr

/-- An `sdk.InodeInfo`, reduced to the fields the handlers read. -/
structure InodeInfo where
  Inode : Nat
  Size : Nat
  deriving DecidableEq, Repr

/-- A user route record; the handlers read the content-encryption key. -/
structure UserRoute where
  CipherKey : List Nat
  deriving DecidableEq, Repr

/-- An `io.Reader`, as the bytes it will yield. -/
abbrev Reader := List Nat

/-- The JSON bodies the handlers respond with. -/
inductive Payload where
  /-- `RespMPuploads`. -/
  | uploads (UploadID : String)
  /-- `inode2file(inode, filename, extend)`. -/
  | file (inode : InodeInfo) (filename : String) (extend : Properties)
  /-- `MPPart` echo of an uploaded part. -/
  | part (p : MPPart)
  /-- `RespMPList`. -/
  | list (Parts : List MPPart) (Next : FileID)
  deriving DecidableEq, Repr

/-- What the handler answers: `c.RespondError(err)` (`none` is a nil error) or
`c.RespondJSON(payload)`. -/
inductive Response where
  | RespondError (err : Option Error)
  | RespondJSON (payload : Payload)
  deriving DecidableEq, Repr

/-- Calls that leave the handler, in the order they are made: root and volume
resolution, user-route lookup, construction of the three pipeline stages, the
volume engine's operations, and the audit log. -/
inductive Call where
  | getRootInoAndVolume (uid : UserID)
  | GetUserRouteInfo (uid : UserID)
  | TransDecryptor (material : String)
  | newCrc32Reader
  | FileEncryptor (key : List Nat)
  | InitMultiPart (path : String) (fileID : Nat) (extend : Properties)
  | CompleteMultiPart (path : String) (uploadID : String) (fileID : Nat) (parts : List Part)
  | GetXAttrMap (inode : Nat)
  | UploadMultiPart (path : String) (uploadID : String) (partNumber : Nat)
  | ListMultiPart (path : String) (uploadID : String) (count : Nat) (marker : Nat)
  | AbortMultiPart (path : String) (uploadID : String)
  | Publish (uid : UserID) (path : String) (size : Nat)
  deriving DecidableEq, Repr

/-- The volume handle returned by `getRootInoAndVolume`: the multipart and
extended-attribute operations of the volume engine. -/
structure Volume where
  InitMultiPart : String → Nat → Properties → Except Error String
  CompleteMultiPart : String → String → Nat → List Part → Except Error InodeInfo
  GetXAttrMap : Nat → Except Error Properties
  UploadMultiPart : String → String → Nat → Reader → Except Error Part
  ListMultiPart : String → String → Nat → Nat → Except Error (List Part × Nat)
  AbortMultiPart : String → String → Option Error

/-- The `DriveNode` and the functions of the package that are not part of the
source file: `FilePath.Clean` (the cleaned path or an error), `FilePath.Split`
(the file name), `getRootPath`, Go's `path.Join`, the user-route lookup, the three
pipeline stages and `json.Unmarshal` of the parts array. -/
structure DriveNode where
  Clean : FilePath → Except Error FilePath
  fileName : FilePath → String
  getRootPath : UserID → String
  Join : String → String → String
  getRootInoAndVolume : UserID → Except Error Volume
  GetUserRouteInfo : UserID → Except Error UserRoute
  TransDecryptor : String → Reader → Except Error Reader
  newCrc32Reader : Reader → Except Error Reader
  FileEncryptor : List Nat → Reader → Except Error Reader
  Unmarshal : List Nat → Except Error (List MPPart)

/-- The request `c *rpc.Context` as the handler sees it: the outcome of
`c.ParseArgs`, the user of the session, the properties and the cipher-material
header, the declared length and the body with the outcome of reading it fully. -/
structure Context (α : Type) where
  ParseArgs : Except Error α
  userID : UserID
  getProperties : Properties
  headerCipherMaterial : String
  RequestLength : Except Error Nat
  Body : Reader
  ReadFull : Nat → Except Error (List Nat)

/-- The function `multipartFullPath`. -/
def multipartFullPath (d : DriveNode) (uid : UserID) (p : FilePath) : String :=
  d.Join (d.getRootPath uid) p

/-- The method `multipartUploads`; `args.Path` is already cleaned. -/
def multipartUploads {α : Type} (d : DriveNode) (c : Context α) (args : ArgsMPUploads) :
    Response × List Call :=
  match d.getRootInoAndVolume c.userID with
  | .error err => (.RespondError (some err), [.getRootInoAndVolume c.userID])
  | .ok vol =>
    let extend := c.getProperties
    let fullPath := multipartFullPath d c.userID args.Path
    match vol.InitMultiPart fullPath args.FileID extend with
    | .error err =>
      (.RespondError (some err),
        [.getRootInoAndVolume c.userID, .InitMultiPart fullPath args.FileID extend])
    | .ok uploadID =>
      (.RespondJSON (.uploads uploadID),
        [.getRootInoAndVolume c.userID, .InitMultiPart fullPath args.FileID extend])

/-- The function `requestParts`. -/
def requestParts {α : Type} (d : DriveNode) (c : Context α) : Except Error (List MPPart) :=
  match c.RequestLength with
  | .error err => .error err
  | .ok size =>
    match c.ReadFull size with
    | .error err => .error err
    | .ok buf => d.Unmarshal buf

/-- The method `multipartComplete`; `args.Path` is already cleaned. -/
def multipartComplete {α : Type} (d : DriveNode) (c : Context α) (args : ArgsMPUploads) :
    Response × List Call :=
  match d.getRootInoAndVolume c.userID with
  | .error err => (.RespondError (some err), [.getRootInoAndVolume c.userID])
  | .ok vol =>
    match requestParts d c with
    | .error err =>
      (.RespondError (some (.ExtendErr .ErrBadRequest err)),
        [.getRootInoAndVolume c.userID])
    | .ok parts =>
      let sParts := parts.map (fun part => (⟨part.PartNumber, 0, part.MD5⟩ : Part))
      let fullPath := multipartFullPath d c.userID args.Path
      match vol.CompleteMultiPart fullPath args.UploadID args.FileID sParts with
      | .error err =>
        (.RespondError (some err),
          [.getRootInoAndVolume c.userID,
           .CompleteMultiPart fullPath args.UploadID args.FileID sParts])
      | .ok inode =>
        match vol.GetXAttrMap inode.Inode with
        | .error err =>
          (.RespondError (some err),
            [.getRootInoAndVolume c.userID,
             .CompleteMultiPart fullPath args.UploadID args.FileID sParts,
             .GetXAttrMap inode.Inode])
        | .ok extend =>
          (.RespondJSON (.file inode (d.fileName args.Path) extend),
            [.getRootInoAndVolume c.userID,
             .CompleteMultiPart fullPath args.UploadID args.FileID sParts,
             .GetXAttrMap inode.Inode,
             .Publish c.userID args.Path inode.Size])

/-- The method `handleMultipartUploads`: initiate when `UploadID` is empty,
complete otherwise. -/
def handleMultipartUploads (d : DriveNode) (c : Context ArgsMPUploads) :
    Response × List Call :=
  match c.ParseArgs with
  | .error err => (.RespondError (some err), [])
  | .ok args =>
    match d.Clean args.Path with
    | .error err => (.RespondError (some err), [])
    | .ok cleaned =>
      if args.UploadID = "" then multipartUploads d c { args with Path := cleaned }
      else multipartComplete d c { args with Path := cleaned }

/-- The method `handleMultipartPart`. -/
def handleMultipartPart (d : DriveNode) (c : Context ArgsMPUpload) : Response × List Call :=
  match c.ParseArgs with
  | .error err => (.RespondError (some err), [])
  | .ok args =>
    if args.PartNumber = 0 then
      (.RespondError (some (.Extend .ErrBadRequest "partNumber is 0")), [])
    else
      match d.Clean args.Path with
      | .error err => (.RespondError (some err), [])
      | .ok cleaned =>
        match d.getRootInoAndVolume c.userID with
        | .error err => (.RespondError (some err), [.getRootInoAndVolume c.userID])
        | .ok vol =>
          match d.GetUserRouteInfo c.userID with
          | .error err =>
            (.RespondError (some err),
              [.getRootInoAndVolume c.userID, .GetUserRouteInfo c.userID])
          | .ok ur =>
            match d.TransDecryptor c.headerCipherMaterial c.Body with
            | .error err =>
              (.RespondError (some err),
                [.getRootInoAndVolume c.userID, .GetUserRouteInfo c.userID,
                 .TransDecryptor c.headerCipherMaterial])
            | .ok reader1 =>
              match d.newCrc32Reader reader1 with
              | .error err =>
                (.RespondError (some err),
                  [.getRootInoAndVolume c.userID, .GetUserRouteInfo c.userID,
                   .TransDecryptor c.headerCipherMaterial, .newCrc32Reader])
              | .ok reader2 =>
                match d.FileEncryptor ur.CipherKey reader2 with
                | .error err =>
                  (.RespondError (some err),
                    [.getRootInoAndVolume c.userID, .GetUserRouteInfo c.userID,
                     .TransDecryptor c.headerCipherMaterial, .newCrc32Reader,
                     .FileEncryptor ur.CipherKey])
                | .ok reader3 =>
                  let fullPath := multipartFullPath d c.userID cleaned
                  match vol.UploadMultiPart fullPath args.UploadID args.PartNumber reader3 with
                  | .error err =>
                    (.RespondError (some err),
                      [.getRootInoAndVolume c.userID, .GetUserRouteInfo c.userID,
                       .TransDecryptor c.headerCipherMaterial, .newCrc32Reader,
                       .FileEncryptor ur.CipherKey,
                       .UploadMultiPart fullPath args.UploadID args.PartNumber])
                  | .ok part =>
                    (.RespondJSON (.part ⟨args.PartNumber, 0, part.MD5⟩),
                      [.getRootInoAndVolume c.userID, .GetUserRouteInfo c.userID,
                       .TransDecryptor c.headerCipherMaterial, .newCrc32Reader,
                       .FileEncryptor ur.CipherKey,
                       .UploadMultiPart fullPath args.UploadID args.PartNumber])

/-- Go's conversion `uint64(n)` of an `int`. -/
def toUint64 (n : Int) : Nat := (n % 2 ^ 64).toNat

/-- Go's conversion `int(n)` of a `uint64`. -/
def toInt (n : Nat) : Int :=
  if n % 2 ^ 64 < 2 ^ 63 then (n % 2 ^ 64 : Nat) else (n % 2 ^ 64 : Nat) - 2 ^ 64

/-- The method `handleMultipartList`. -/
def handleMultipartList (d : DriveNode) (c : Context ArgsMPList) : Response × List Call :=
  match c.ParseArgs with
  | .error err => (.RespondError (some err), [])
  | .ok args =>
    match d.Clean args.Path with
    | .error err => (.RespondError (some err), [])
    | .ok cleaned =>
      match d.getRootInoAndVolume c.userID with
      | .error err => (.RespondError (some err), [.getRootInoAndVolume c.userID])
      | .ok vol =>
        let Count : Int := if args.Count ≤ 0 then 400 else args.Count
        let fullPath := multipartFullPath d c.userID cleaned
        match vol.ListMultiPart fullPath args.UploadID (toUint64 Count) args.Marker with
        | .error err =>
          (.RespondError (some err),
            [.getRootInoAndVolume c.userID,
             .ListMultiPart fullPath args.UploadID (toUint64 Count) args.Marker])
        | .ok (sParts, next) =>
          let parts := sParts.map (fun part => (⟨part.ID, toInt part.Size, part.MD5⟩ : MPPart))
          (.RespondJSON (.list parts next),
            [.getRootInoAndVolume c.userID,
             .ListMultiPart fullPath args.UploadID (toUint64 Count) args.Marker])

/-- The method `handleMultipartAbort`. -/
def handleMultipartAbort (d : DriveNode) (c : Context ArgsMPAbort) : Response × List Call :=
  match c.ParseArgs with
  | .error err => (.RespondError (some err), [])
  | .ok args =>
    match d.Clean args.Path with
    | .error err => (.RespondError (some err), [])
    | .ok cleaned =>
      match d.getRootInoAndVolume c.userID with
      | .error err => (.RespondError (some err), [.getRootInoAndVolume c.userID])
      | .ok vol =>
        let fullPath := multipartFullPath d c.userID cleaned
        (.RespondError (vol.AbortMultiPart fullPath args.UploadID),
          [.getRootInoAndVolume c.userID, .AbortMultiPart fullPath args.UploadID])

/-! ## A concrete drive used to evaluate the handlers -/

/-- A volume on which every operation succeeds. -/
def okVolume : Volume where
  InitMultiPart := fun _ _ _ => .ok "upload-1"
  CompleteMultiPart := fun _ _ _ _ => .ok ⟨100, 4096⟩
  GetXAttrMap := fun _ => .ok []
  UploadMultiPart := fun _ _ n _ => .ok ⟨n, 0, "d41d8cd98f00b204e9800998ecf8427e"⟩
  ListMultiPart := fun _ _ _ _ => .ok ([], 0)
  AbortMultiPart := fun _ _ => none

/-- A drive whose `Clean` rejects every path that starts with `..` and accepts all
others unchanged, and on which everything else succeeds. -/
def testDrive : DriveNode where
  Clean := fun p =>
    if "..".data.isPrefixOf p.data then .error (.other "invalid path") else .ok p
  fileName := fun p => p
  getRootPath := fun uid => "/" ++ uid
  Join := fun a b => a ++ b
  getRootInoAndVolume := fun _ => .ok okVolume
  GetUserRouteInfo := fun _ => .ok ⟨[1, 2, 3]⟩
  TransDecryptor := fun _ r => .ok r
  newCrc32Reader := fun r => .ok r
  FileEncryptor := fun _ r => .ok r
  Unmarshal := fun _ => .ok []

/-- A request of user `u1` with parsed arguments `args` and an empty body. -/
def request {α : Type} (args : α) : Context α where
  ParseArgs := .ok args
  userID := "u1"
  getProperties := []
  headerCipherMaterial := ""
  RequestLength := .ok 0
  Body := []
  ReadFull := fun _ => .ok []

end Drive

namespace Cfs

/-! ## Properties of `isNeedFix` -/

theorem foldl_leader (replicas : List DataReplica) (b : Bool) :
    replicas.foldl (fun leader r => if r.IsLeader then true else leader) b
      = (b || replicas.any (fun r => r.IsLeader)) := by
  induction replicas generalizing b with
  | nil => simp
  | cons r rs ih =>
    simp only [List.foldl_cons, List.any_cons, ih]
    cases r.IsLeader <;> cases b <;> simp

theorem leaderFlag_iff (replicas : List DataReplica) :
    leaderFlag replicas = true ↔ ∃ r ∈ replicas, r.IsLeader = true := by
  unfold leaderFlag
  rw [foldl_leader]
  simp

theorem leaderFlag_false_iff (replicas : List DataReplica) :
    leaderFlag replicas = false ↔ ∀ r ∈ replicas, r.IsLeader = false := by
  unfold leaderFlag
  rw [foldl_leader]
  simp

/-- C1, as the code has it: `isNeedFix` reports needs-fix exactly when both fetches
succeed, the first detail has replica count 2, exactly one effective host and at
least one replica marked leader, and the second detail again has exactly one
effective host; it then returns no error, and the second fetch follows the first
after a 20-second sleep. -/
theorem isNeedFix_fix_iff {σ : Type} (W : World σ) (partition : Nat) (s : σ) :
    ((isNeedFix W partition s).1.fix = true ↔
      ∃ dp dp2,
        (W.GetDataPartition partition s).1 = .ok dp ∧
        (W.GetDataPartition partition (W.GetDataPartition partition s).2).1 = .ok dp2 ∧
        dp.ReplicaNum = 2 ∧ dp.Hosts.length = 1 ∧
        (∃ r ∈ dp.Replicas, r.IsLeader = true) ∧
        dp2.Hosts.length = 1) ∧
    ((isNeedFix W partition s).1.fix = true →
      (isNeedFix W partition s).1.err = none ∧
      (isNeedFix W partition s).2.2 =
        [.GetDataPartition partition, .Sleep 20, .GetDataPartition partition]) := by
  unfold isNeedFix
  rcases h1 : W.GetDataPartition partition s with ⟨r1, s1⟩
  cases r1 with
  | error e => simp
  | ok dp =>
    by_cases hn : dp.ReplicaNum = 2
    · by_cases hh : dp.Hosts.length = 1
      · cases hl : leaderFlag dp.Replicas with
        | false =>
          have := (leaderFlag_false_iff dp.Replicas).1 hl
          simp [hn, hh, hl]
          intro _ _ r hr hrl
          simp [this r hr] at hrl
        | true =>
          obtain ⟨r, hr, hrl⟩ := (leaderFlag_iff dp.Replicas).1 hl
          rcases h2 : W.GetDataPartition partition s1 with ⟨r2, s2⟩
          cases r2 with
          | error e => simp [hn, hh, hl, h2]
          | ok dp2 =>
            by_cases hh2 : dp2.Hosts.length = 1
            · simp [hn, hh, hl, h2, hh2]
              exact ⟨r, hr, hrl⟩
            · simp [hn, hh, hl, h2, hh2]
      · simp [hn, hh]
    · simp [hn]

/-- C1, counterexample: with two replicas both marked leader (so not exactly one),
`isNeedFix` still reports needs-fix without error. -/
theorem isNeedFix_two_leaders :
    (isNeedFix (constWorld twoLeaders) 7 ()).1
        = ⟨true, "10.0.0.2:6000", "10.0.0.1:6000", none⟩ ∧
      (twoLeaders.Replicas.filter (fun r => r.IsLeader)).length = 2 := by
  decide

/-- C5: when the first fetch succeeds, a replica count other than 2 or a number of
effective hosts other than 1 gives "no fix needed" with no error and empty host
addresses whatever the leader flags are, and replica count 2 with exactly one
effective host and no replica marked leader gives the error
`partition:<id> no leader` with `fix = false`; in both cases nothing is called
after the first fetch. -/
theorem isNeedFix_first_check {σ : Type} (W : World σ) (partition : Nat) (s : σ)
    (dp : DataPartitionInfo) (hfetch : (W.GetDataPartition partition s).1 = .ok dp) :
    ((dp.ReplicaNum ≠ 2 ∨ dp.Hosts.length ≠ 1) →
      (isNeedFix W partition s).1 = ⟨false, "", "", none⟩ ∧
      (isNeedFix W partition s).2.2 = [.GetDataPartition partition]) ∧
    (dp.ReplicaNum = 2 → dp.Hosts.length = 1 →
      (∀ r ∈ dp.Replicas, r.IsLeader = false) →
      (isNeedFix W partition s).1
        = ⟨false, "", "", some ("partition:" ++ toString partition ++ " no leader")⟩ ∧
      (isNeedFix W partition s).2.2 = [.GetDataPartition partition]) := by
  unfold isNeedFix
  rcases h1 : W.GetDataPartition partition s with ⟨r1, s1⟩
  rw [h1] at hfetch
  simp only at hfetch
  subst hfetch
  refine ⟨?_, ?_⟩
  · intro h
    by_cases hn : dp.ReplicaNum = 2
    · have hh : dp.Hosts.length ≠ 1 := by
        rcases h with h | h
        · exact absurd hn h
        · exact h
      simp [hn, hh]
    · simp [hn]
  · intro hn hh hl
    have := (leaderFlag_false_iff dp.Replicas).2 hl
    simp [hn, hh, this]

/-- C5, witness: replica count 3 with one host, and replica count 2 with one host
and no leader. -/
theorem isNeedFix_first_check_witness :
    (isNeedFix (constWorld threeReplicas) 7 ()).1 = ⟨false, "", "", none⟩ ∧
    (isNeedFix (constWorld leaderless) 7 ()).1
      = ⟨false, "", "", some "partition:7 no leader"⟩ :=
  ⟨((isNeedFix_first_check (constWorld threeReplicas) 7 () threeReplicas rfl).1
      (Or.inl (by decide))).1,
   ((isNeedFix_first_check (constWorld leaderless) 7 () leaderless rfl).2
      (by decide) (by decide) (by decide)).1⟩

theorem findExtraHost_spec (host0 : String) (replicas : List DataReplica) :
    (∃ r ∈ replicas, r.Addr = findExtraHost host0 replicas ∧
        findExtraHost host0 replicas ≠ host0) ∨
      ((∀ r ∈ replicas, r.Addr = host0) ∧ findExtraHost host0 replicas = "") := by
  induction replicas with
  | nil => exact Or.inr ⟨by simp, rfl⟩
  | cons r rs ih =>
    by_cases hr : r.Addr = host0
    · simp only [findExtraHost, hr, if_true]
      rcases ih with ⟨q, hq, h1, h2⟩ | ⟨h1, h2⟩
      · exact Or.inl ⟨q, by simp [hq], h1, h2⟩
      · refine Or.inr ⟨?_, h2⟩
        intro q hq
        rcases List.mem_cons.1 hq with h | h
        · rw [h]; exact hr
        · exact h1 q h
    · simp only [findExtraHost, hr, if_false]
      exact Or.inl ⟨r, by simp, rfl, hr⟩

/-- What `isNeedFix` returns with `fix = true`: the remain host is the sole
effective host of the re-fetched detail, and the extra host is the address of the
first replica of that detail that differs from it, or the empty string when the
detail lists no such replica. -/
theorem isNeedFix_hosts {σ : Type} (W : World σ) (partition : Nat) (s : σ)
    (hfix : (isNeedFix W partition s).1.fix = true) :
    ∃ dp2, (W.GetDataPartition partition (W.GetDataPartition partition s).2).1 = .ok dp2 ∧
      dp2.Hosts = [(isNeedFix W partition s).1.remainHost] ∧
      (isNeedFix W partition s).1.extraHost
        = findExtraHost (isNeedFix W partition s).1.remainHost dp2.Replicas := by
  unfold isNeedFix at hfix ⊢
  rcases h1 : W.GetDataPartition partition s with ⟨r1, s1⟩
  rw [h1] at hfix
  cases r1 with
  | error e => simp at hfix
  | ok dp =>
    simp only at hfix ⊢
    split at hfix
    · simp at hfix
    · split at hfix
      · simp at hfix
      · split at hfix
        · simp at hfix
        · rename_i hn hh hl
          rw [if_neg hn, if_neg hh, if_neg hl]
          rcases h2 : W.GetDataPartition partition s1 with ⟨r2, s2⟩
          rw [h2] at hfix
          cases r2 with
          | error e => simp at hfix
          | ok dp2 =>
            simp only at hfix ⊢
            split at hfix
            · simp at hfix
            · rename_i hh2
              rw [if_neg hh2]
              refine ⟨dp2, rfl, ?_, rfl⟩
              have hlen : dp2.Hosts.length = 1 := not_not.1 hh2
              obtain ⟨h, hh⟩ := List.length_eq_one.1 hlen
              simp [hh]

/-- C6, at the failing input: the re-fetched detail lists one effective host and
only the replica on that host; `isNeedFix` reports needs-fix with the empty string
as extra host, which is the address of no replica of the partition. -/
theorem isNeedFix_sole_replica :
    (isNeedFix (constWorld soleReplica) 7 ()).1 = ⟨true, "", "10.0.0.1:6000", none⟩ ∧
      ∀ r ∈ soleReplica.Replicas, r.Addr ≠ "" := by
  decide

/-! ## Properties of the probe loop -/

theorem vetted_nil (nodes : List NodeView) (partition : Nat) (extra remain : String) :
    Vetted nodes partition extra remain [] := by
  intro pre post p addr ap th h
  simp at h

theorem getLast?_cons_of_some {α : Type} (x a : α) (l : List α)
    (h : l.getLast? = some a) : (x :: l).getLast? = some a := by
  cases l with
  | nil => simp at h
  | cons y ys => simpa [List.getLast?_cons_cons] using h

theorem vetted_fetch (nodes : List NodeView) (partition : Nat) (extra remain : String)
    (a : String) (i : Option DataNodeInfo) (es : List Event)
    (h : Vetted nodes partition extra remain es) :
    Vetted nodes partition extra remain (Event.GetDataNode a i :: es) := by
  intro pre post p addr ap th heq
  cases pre with
  | nil => simp at heq
  | cons x pre' =>
    simp only [List.cons_append, List.cons.injEq] at heq
    obtain ⟨h1, h2, h3, h4, h5, h6, info, h7, h8⟩ := h pre' post p addr ap th heq.2
    exact ⟨h1, h2, h3, h4, h5, h6, info, getLast?_cons_of_some _ _ _ h7, h8⟩

theorem vetted_add (nodes : List NodeView) (partition : Nat) (extra remain : String)
    (node : NodeView) (info : DataNodeInfo) (tail : List Event)
    (hmem : node ∈ nodes) (he : node.Addr ≠ extra) (hr : node.Addr ≠ remain)
    (hact : info.IsActive = true) (huse : info.UsageRatio ≤ usageLimit)
    (htail : ∀ p addr ap th, Event.AddDataLearner p addr ap th ∉ tail) :
    Vetted nodes partition extra remain
      (Event.GetDataNode node.Addr (some info) ::
        Event.AddDataLearner partition node.Addr true 90 :: tail) := by
  intro pre post p addr ap th heq
  cases pre with
  | nil => simp at heq
  | cons x pre' =>
    cases pre' with
    | nil =>
      simp only [List.cons_append, List.nil_append, List.cons.injEq, Event.AddDataLearner.injEq]
        at heq
      obtain ⟨hx, ⟨hp, ha, hap, hth⟩, _⟩ := heq
      subst hx hp ha hap hth
      exact ⟨he, hr, rfl, rfl, rfl, ⟨node, hmem, rfl⟩, info, by simp, hact, huse⟩
    | cons y pre'' =>
      simp only [List.cons_append, List.cons.injEq] at heq
      exfalso
      apply htail p addr ap th
      rw [heq.2.2]
      simp

/-- Every `AddDataLearner` call of the probe loop is vetted against the two hosts
the loop was given. -/
theorem probeLoop_vetted {σ : Type} (W : World σ)
    (allNodeViews : List NodeView) (partition : Nat) (extraHost remainHost : String)
    (tries : Nat) (s : σ) :
    Vetted allNodeViews partition extraHost remainHost
      (probeLoop W allNodeViews partition extraHost remainHost tries s).2.2 := by
  induction tries generalizing s with
  | zero => exact vetted_nil _ _ _ _
  | succ n ih =>
    rw [probeLoop]
    split
    · exact vetted_nil _ _ _ _
    · simp only
      split
      · exact vetted_nil _ _ _ _
      · rename_i destNode hget
        have hmem : destNode ∈ allNodeViews := List.getElem?_mem hget
        split
        · exact ih _
        · rename_i hne
          simp only [not_or] at hne
          split
          · exact vetted_fetch _ _ _ _ _ _ _ (ih _)
          · rename_i destNodeView s2 hfetch
            split
            · exact vetted_fetch _ _ _ _ _ _ _ (ih _)
            · rename_i huse
              split
              · exact vetted_fetch _ _ _ _ _ _ _ (ih _)
              · rename_i hact
                have hact' : destNodeView.IsActive = true := by simpa using hact
                have huse' : destNodeView.UsageRatio ≤ usageLimit := not_lt.1 huse
                split
                · exact vetted_add _ _ _ _ destNode destNodeView [] hmem hne.1 hne.2
                    hact' huse' (by simp)
                · exact vetted_add _ _ _ _ destNode destNodeView _ hmem hne.1 hne.2
                    hact' huse' (by simp)

/-- The comparison of line 127 at its boundary: a node that reports usage 0.8 (the
`float64` nearest to 4/5, which is above 4/5) is accepted, a node above that value
is passed over. -/
theorem probeLoop_usage_boundary :
    (probeLoop (usageWorld usageLimit) zoneTwoNodes 2 "dn5:6000" "dn4:6000" retry ()).1
      = .added ∧
    (probeLoop (usageWorld (usageLimit + 1 / 2 ^ 60)) zoneTwoNodes 2 "dn5:6000" "dn4:6000"
      retry ()).1 = .exhausted ∧
    (8 / 10 : ℚ) < usageLimit := by
  decide!

theorem isNeedFix_events {σ : Type} (W : World σ) (p : Nat) (s : σ) (e : Event)
    (he : e ∈ (isNeedFix W p s).2.2) : e = .GetDataPartition p ∨ e = .Sleep 20 := by
  unfold isNeedFix at he
  repeat' split at he
  all_goals simp at he
  all_goals tauto

theorem mem_of_eq_append {α : Type} (l pre post : List α) (a : α)
    (h : l = pre ++ a :: post) : a ∈ l := by
  rw [h]
  simp

theorem append_split_of_not_mem (l es pre post : List Event) (a : Event) (hl : a ∉ l)
    (h : l ++ es = pre ++ a :: post) :
    ∃ pre2, pre = l ++ pre2 ∧ es = pre2 ++ a :: post := by
  induction l generalizing pre with
  | nil => exact ⟨pre, rfl, by simpa using h⟩
  | cons x l ih =>
    cases pre with
    | nil =>
      simp only [List.cons_append, List.nil_append, List.cons.injEq] at h
      exact absurd (by simp [h.1]) hl
    | cons y pre' =>
      simp only [List.cons_append, List.cons.injEq] at h
      obtain ⟨pre2, h1, h2⟩ := ih pre' (fun hm => hl (List.mem_cons_of_mem _ hm)) h.2
      exact ⟨pre2, by rw [h.1, h1]; rfl, h2⟩

theorem append_singleton_split (es pre post : List Event) (x a : Event) (hx : x ≠ a)
    (h : es ++ [x] = pre ++ a :: post) : ∃ post1, es = pre ++ a :: post1 := by
  rcases List.append_eq_append_iff.1 h with ⟨a', h1, h2⟩ | ⟨c', h1, h2⟩
  · cases a' with
    | nil =>
      simp only [List.nil_append, List.cons.injEq] at h2
      exact absurd h2.1 hx
    | cons y a'' =>
      simp only [List.cons_append, List.cons.injEq] at h2
      have := congrArg List.length h2.2
      simp at this
      omega
  · cases c' with
    | nil =>
      simp only [List.nil_append, List.cons.injEq] at h2
      exact absurd h2.1.symm hx
    | cons y c'' =>
      simp only [List.cons_append, List.cons.injEq] at h2
      exact ⟨c'', by rw [h1, h2.1]⟩

theorem getLast?_append_of_some {α : Type} (l1 l2 : List α) (a : α)
    (h : l2.getLast? = some a) : (l1 ++ l2).getLast? = some a := by
  induction l1 with
  | nil => simpa using h
  | cons x l ih => exact getLast?_cons_of_some _ _ _ ih

/-- Every `AddDataLearner` call of the loop body for one candidate (lines 85-140)
is for that candidate, which `isNeedFix` confirmed, and is vetted against the
extra host and the remaining host `isNeedFix` returned. -/
theorem fixPartition_vetted {σ : Type} (W : World σ) (topologyView : TopologyView)
    (partition : Nat) (s : σ) (pre post : List Event) (p : Nat) (addr : String)
    (ap : Bool) (th : Nat)
    (hcall : (fixPartition W topologyView partition s).2.2
      = pre ++ Event.AddDataLearner p addr ap th :: post) :
    p = partition ∧
    (isNeedFix W partition s).1.fix = true ∧
    addr ≠ (isNeedFix W partition s).1.extraHost ∧
    addr ≠ (isNeedFix W partition s).1.remainHost ∧
    ∃ info : DataNodeInfo,
      pre.getLast? = some (Event.GetDataNode addr (some info)) ∧
      info.IsActive = true ∧ info.UsageRatio ≤ usageLimit := by
  have hev := isNeedFix_events W partition s (Event.AddDataLearner p addr ap th)
  unfold fixPartition at hcall
  rcases hr : isNeedFix W partition s with ⟨r, s1, es⟩
  rw [hr] at hcall hev
  simp only at hcall hev ⊢
  have hnot : Event.AddDataLearner p addr ap th ∉ es := by
    intro hm
    rcases hev hm with h | h <;> cases h
  split at hcall
  · exact absurd (mem_of_eq_append _ _ _ _ hcall) hnot
  · split at hcall
    · exact absurd (mem_of_eq_append _ _ _ _ hcall) hnot
    · rename_i herr hfix
      have hfix' : r.fix = true := by simpa using hfix
      split at hcall
      · have := mem_of_eq_append _ _ _ _ hcall
        simp only [List.mem_append, List.mem_singleton] at this
        rcases this with h | h
        · exact absurd h hnot
        · cases h
      · rename_i dn s2 hdn
        simp only at hcall
        have hnot2 : Event.AddDataLearner p addr ap th
            ∉ es ++ [Event.GetDataNode r.extraHost (some dn)] := by
          intro hm
          simp only [List.mem_append, List.mem_singleton] at hm
          rcases hm with h | h
          · exact hnot h
          · cases h
        obtain ⟨pre2, hpre, hes3⟩ := append_split_of_not_mem _ _ _ _ _ hnot2 hcall
        have hv := probeLoop_vetted W (zoneNodeViews topologyView dn.ZoneName) partition
          r.extraHost r.remainHost retry s2
        obtain ⟨h1, h2, h3, _, _, _, info, h7, h8⟩ := hv pre2 post p addr ap th hes3
        refine ⟨h3, hfix', h1, h2, info, ?_, h8⟩
        rw [hpre]
        exact getLast?_append_of_some _ _ _ h7

/-- Every `AddDataLearner` call of the `range idsMap` loop is vetted. -/
theorem fixLoop_vetted {σ : Type} (W : World σ) (topologyView : TopologyView)
    (partitions : List Nat) (s : σ) (pre post : List Event) (p : Nat) (addr : String)
    (ap : Bool) (th : Nat)
    (hcall : (fixLoop W topologyView partitions s).2.2
      = pre ++ Event.AddDataLearner p addr ap th :: post) :
    CallVetted W p addr pre := by
  induction partitions generalizing s pre with
  | nil => simp [fixLoop] at hcall
  | cons q rest ih =>
    rw [fixLoop] at hcall
    have hF := fixPartition_vetted W topologyView q s
    rcases hq : fixPartition W topologyView q s with ⟨b, s1, es⟩
    rw [hq] at hcall hF
    simp only at hF
    cases b with
    | true =>
      simp only at hcall
      obtain ⟨hp, h1, h2, h3, h4⟩ := hF pre post p addr ap th hcall
      subst hp
      exact ⟨s, h1, h2, h3, h4⟩
    | false =>
      simp only [emit] at hcall
      rcases List.append_eq_append_iff.1 hcall with ⟨a', h1, h2⟩ | ⟨c', h1, h2⟩
      · obtain ⟨s0, g1, g2, g3, info, g4, g5⟩ := ih s1 a' h2
        exact ⟨s0, g1, g2, g3, info, by rw [h1]; exact getLast?_append_of_some _ _ _ g4, g5⟩
      · cases c' with
        | nil =>
          simp only [List.nil_append] at h2
          obtain ⟨s0, g1, g2, g3, info, g4, g5⟩ := ih s1 [] (by rw [← h2]; rfl)
          simp at g4
        | cons x c'' =>
          simp only [List.cons_append, List.cons.injEq] at h2
          have hes : es = pre ++ Event.AddDataLearner p addr ap th :: c'' := by
            rw [h1, h2.1]
          obtain ⟨hp, g1, g2, g3, g4⟩ := hF pre c'' p addr ap th hes
          subst hp
          exact ⟨s, g1, g2, g3, g4⟩

/-- C2: for every world (topology, partition details, node records, random draws,
key order) and every `AddDataLearner` call that one cycle of
`doFixBadDataPartition` makes, the partition of the call was confirmed bad by
`isNeedFix` in some world state of the cycle, the address of the call differs
from the extra host and from the remaining host which that `isNeedFix` returned,
and the call directly follows the fetch of the node's record, which is marked
active and has usage ratio at most 0.8 (compared, as in the code, as `float64`). -/
theorem doFixBadDataPartition_AddDataLearner_vetted {σ : Type} (W : World σ) (s : σ)
    (pre post : List Event) (p : Nat) (addr : String) (ap : Bool) (th : Nat)
    (hcall : (doFixBadDataPartition W s).2
      = pre ++ Event.AddDataLearner p addr ap th :: post) :
    ∃ s0 : σ,
      (isNeedFix W p s0).1.fix = true ∧
      addr ≠ (isNeedFix W p s0).1.extraHost ∧
      addr ≠ (isNeedFix W p s0).1.remainHost ∧
      ∃ info : DataNodeInfo,
        pre.getLast? = some (Event.GetDataNode addr (some info)) ∧
        info.IsActive = true ∧ info.UsageRatio ≤ usageLimit := by
  have hhead : Event.AddDataLearner p addr ap th
      ∉ [Event.GetAlarmRecords, Event.GetTopology] := by simp
  have lift : ∀ pre2, pre = [Event.GetAlarmRecords, Event.GetTopology] ++ pre2 →
      CallVetted W p addr pre2 → CallVetted W p addr pre := by
    intro pre2 hpre hv
    obtain ⟨s0, g1, g2, g3, info, g4, g5⟩ := hv
    exact ⟨s0, g1, g2, g3, info, by rw [hpre]; exact getLast?_append_of_some _ _ _ g4, g5⟩
  unfold doFixBadDataPartition at hcall
  split at hcall
  · have := mem_of_eq_append _ _ _ _ hcall
    simp at this
  · split at hcall
    · have := mem_of_eq_append _ _ _ _ hcall
      simp at this
    · split at hcall
      · have := mem_of_eq_append _ _ _ _ hcall
        simp at this
      · split at hcall
        · have := mem_of_eq_append _ _ _ _ hcall
          simp at this
        · rename_i topologyView s2 htopo
          split at hcall
          · rename_i s3 es hloop
            simp only at hcall
            rw [List.append_assoc] at hcall
            obtain ⟨pre2, hpre, hes⟩ := append_split_of_not_mem _ _ _ _ _ hhead hcall
            obtain ⟨post1, hes1⟩ := append_singleton_split _ _ _ _ _ (by simp) hes
            have hv := fixLoop_vetted W topologyView _ s2 pre2 post1 p addr ap th
              (by rw [hloop]; exact hes1)
            exact lift pre2 hpre hv
          · rename_i s3 es hloop
            simp only at hcall
            obtain ⟨pre2, hpre, hes⟩ := append_split_of_not_mem _ _ _ _ _ hhead hcall
            have hv := fixLoop_vetted W topologyView _ s2 pre2 post p addr ap th
              (by rw [hloop]; exact hes)
            exact lift pre2 hpre hv

/-- C2, witness: the cycle of `twoZoneWorld` that visits partition `2` first adds
the learner on `dn6`: partition `2` is confirmed with extra host `dn5` and
remaining host `dn4`, and the record of `dn6` is active with usage 1/2. -/
theorem doFixBadDataPartition_AddDataLearner_vetted_witness :
    ∃ s0 : Unit,
      (isNeedFix (twoZoneWorld (fun _ => [2, 1])) 2 s0).1.fix = true ∧
      "dn6:6000" ≠ (isNeedFix (twoZoneWorld (fun _ => [2, 1])) 2 s0).1.extraHost ∧
      "dn6:6000" ≠ (isNeedFix (twoZoneWorld (fun _ => [2, 1])) 2 s0).1.remainHost ∧
      ∃ info : DataNodeInfo,
        [Event.GetAlarmRecords, Event.GetTopology,
          Event.GetDataPartition 2, Event.Sleep 20, Event.GetDataPartition 2,
          Event.GetDataNode "dn5:6000" (some ⟨"dn5:6000", "z2", false, 0⟩),
          Event.GetDataNode "dn6:6000" (some dnSix)].getLast?
          = some (Event.GetDataNode "dn6:6000" (some info)) ∧
        info.IsActive = true ∧ info.UsageRatio ≤ usageLimit :=
  doFixBadDataPartition_AddDataLearner_vetted (twoZoneWorld (fun _ => [2, 1])) ()
    [Event.GetAlarmRecords, Event.GetTopology,
      Event.GetDataPartition 2, Event.Sleep 20, Event.GetDataPartition 2,
      Event.GetDataNode "dn5:6000" (some ⟨"dn5:6000", "z2", false, 0⟩),
      Event.GetDataNode "dn6:6000" (some dnSix)]
    [Event.WarningBySpecialUMPKey (fixedMessage 2 "dn6:6000"),
      Event.GetDataPartition 1, Event.Sleep 20, Event.GetDataPartition 1,
      Event.GetDataNode "dn2:6000" (some ⟨"dn2:6000", "z1", false, 0⟩),
      Event.Recovered]
    2 "dn6:6000" true 90 (by decide!)

/-- The probe loop panics exactly when it is entered with at most one node in
the zone: `rand.Intn(len(allNodeViews) - 1)` gets a non-positive argument. -/
theorem probeLoop_panicked_iff {σ : Type} (W : World σ) (allNodeViews : List NodeView)
    (partition : Nat) (extraHost remainHost : String) (tries : Nat) (s : σ) :
    (probeLoop W allNodeViews partition extraHost remainHost tries s).1 = .panicked ↔
      0 < tries ∧ allNodeViews.length ≤ 1 := by
  induction tries generalizing s with
  | zero => simp [probeLoop]
  | succ n ih =>
    rw [probeLoop]
    by_cases hlen : allNodeViews.length ≤ 1
    · simp [hlen]
    · have hidx : (W.rand s).1 % (allNodeViews.length - 1) < allNodeViews.length := by
        have : (W.rand s).1 % (allNodeViews.length - 1) < allNodeViews.length - 1 :=
          Nat.mod_lt _ (by omega)
        omega
      have hno : ∀ s1,
          (probeLoop W allNodeViews partition extraHost remainHost n s1).1 ≠ .panicked :=
        fun s1 h => hlen ((ih s1).1 h).2
      simp only [hlen, if_false]
      rw [List.getElem?_eq_getElem hidx]
      simp only
      constructor
      · intro h
        exfalso
        revert h
        repeat' split
        all_goals first
          | exact hno _
          | (intro h; cases h)
      · intro h
        exact h.2.elim

/-! ## Properties of the alarm scan -/

theorem cut_first (sep a b : List Char) (hsep : sep ≠ [])
    (hfirst : ∀ k, k < a.length → sep.isPrefixOf ((a ++ sep ++ b).drop k) = false) :
    cut sep (a ++ sep ++ b) = some (a, b) := by
  induction a with
  | nil =>
    cases sep with
    | nil => exact absurd rfl hsep
    | cons x xs =>
      have hp : (x :: xs).isPrefixOf (x :: (xs ++ b)) = true := by
        rw [List.isPrefixOf_iff_prefix]
        exact List.prefix_append (x :: xs) b
      have hd : List.drop (x :: xs).length (x :: (xs ++ b)) = b := by
        simp
      show cut (x :: xs) (x :: (xs ++ b)) = some ([], b)
      rw [cut, if_pos hp, hd]
  | cons c a' ih =>
    have h0 : ¬ sep.isPrefixOf (c :: (a' ++ sep ++ b)) = true := by
      have := hfirst 0 (by simp)
      simp only [List.drop_zero, List.cons_append] at this
      rw [this]
      simp
    have ih' := ih (fun k hk => by
      have := hfirst (k + 1) (by simpa using hk)
      simpa using this)
    show cut sep (c :: (a' ++ sep ++ b)) = some (c :: a', b)
    rw [cut, if_neg h0, ih']

theorem isDigit_ne_p (c : Char) (h : c.isDigit = true) : c ≠ 'p' := by
  intro hc
  subst hc
  revert h
  decide

theorem isDigit_ne_space (c : Char) (h : c.isDigit = true) : c ≠ ' ' := by
  intro hc
  subst hc
  revert h
  decide

theorem cut_key_skip (pfx rest : List Char) (h : ∀ c ∈ pfx, c ≠ 'p') :
    cut partitionIDKey (pfx ++ rest)
      = (cut partitionIDKey rest).map (fun ab => (pfx ++ ab.1, ab.2)) := by
  induction pfx with
  | nil =>
    rcases hcut : cut partitionIDKey rest with _ | ab
    · simp [hcut]
    · simp [hcut]
  | cons c p' ih =>
    have hc : c ≠ 'p' := h c (by simp)
    have ih' := ih (fun d hd => h d (by simp [hd]))
    have hpre : ¬ partitionIDKey.isPrefixOf (c :: (p' ++ rest)) = true := by
      have : partitionIDKey = 'p' :: "artitionID:".data := rfl
      rw [this, List.isPrefixOf]
      simp [Ne.symm hc]
    show cut partitionIDKey (c :: (p' ++ rest)) = _
    rw [cut, if_neg hpre, ih']
    rcases hcut : cut partitionIDKey rest with _ | ab
    · simp
    · simp

theorem splitLoop_key_head (pfx rest : List Char) (fuel : Nat) (h : ∀ c ∈ pfx, c ≠ 'p') :
    ∃ y, (splitLoop partitionIDKey fuel (pfx ++ rest))[0]? = some (pfx ++ y) := by
  cases fuel with
  | zero => exact ⟨rest, by simp [splitLoop]⟩
  | succ m =>
    rw [splitLoop, cut_key_skip pfx rest h]
    cases hcut : cut partitionIDKey rest with
    | none => exact ⟨rest, by simp⟩
    | some ab => exact ⟨ab.1, by simp⟩

theorem cut_space (ds y : List Char) (h : ∀ c ∈ ds, c ≠ ' ') :
    cut [' '] (ds ++ ' ' :: y) = some (ds, y) := by
  induction ds with
  | nil => simp [cut, List.isPrefixOf]
  | cons c ds' ih =>
    have hc : c ≠ ' ' := h c (by simp)
    have ih' := ih (fun d hd => h d (by simp [hd]))
    simp [cut, List.isPrefixOf, Ne.symm hc, ih']

theorem split_space_head (ds y : List Char) (h : ∀ c ∈ ds, c ≠ ' ') :
    (split (ds ++ ' ' :: y) [' '])[0]? = some ds := by
  unfold split
  have hlen : (ds ++ ' ' :: y).length = (ds.length + y.length) + 1 := by
    simp [Nat.add_assoc]
  rw [hlen, splitLoop, cut_space ds y h]
  simp

theorem foldl_digits_ge (cs : List Char) (n : Nat) :
    n ≤ cs.foldl (fun n c => n * 10 + (c.toNat - '0'.toNat)) n := by
  induction cs generalizing n with
  | nil => simp
  | cons c cs ih =>
    simp only [List.foldl_cons]
    have := ih (n * 10 + (c.toNat - '0'.toNat))
    omega

theorem parseUintLoop_digits (cs : List Char) (n : Nat)
    (hd : ∀ c ∈ cs, c.isDigit = true)
    (hv : cs.foldl (fun n c => n * 10 + (c.toNat - '0'.toNat)) n < 2 ^ 64) :
    parseUintLoop cs n = .ok (cs.foldl (fun n c => n * 10 + (c.toNat - '0'.toNat)) n) := by
  induction cs generalizing n with
  | nil => simp [parseUintLoop]
  | cons c cs ih =>
    have hc : c.isDigit = true := hd c (by simp)
    simp only [List.foldl_cons] at hv ⊢
    have hge := foldl_digits_ge cs (n * 10 + (c.toNat - '0'.toNat))
    have hlt : n * 10 + (c.toNat - '0'.toNat) < 2 ^ 64 := lt_of_le_of_lt hge hv
    have h10 : n * 10 % 2 ^ 64 = n * 10 := Nat.mod_eq_of_lt (by omega)
    have h1 : (n * 10 + (c.toNat - '0'.toNat)) % 2 ^ 64 = n * 10 + (c.toNat - '0'.toNat) :=
      Nat.mod_eq_of_lt hlt
    have hcut : ¬ n ≥ maxUint64 / 10 + 1 := by
      simp only [maxUint64]
      omega
    have hov : ¬ (n * 10 + (c.toNat - '0'.toNat) < n * 10 ∨
        n * 10 + (c.toNat - '0'.toNat) > maxUint64) := by
      simp only [maxUint64]
      omega
    rw [parseUintLoop]
    simp only [hc, if_true, hcut, if_false, h10, h1, hov]
    exact ih _ (fun d hd' => hd d (by simp [hd'])) hv

theorem parseUint_digits (ds : List Char) (hne : ds ≠ [])
    (hd : ∀ c ∈ ds, c.isDigit = true) (hv : decimalValue ds < 2 ^ 64) :
    parseUint ds = .ok (decimalValue ds) := by
  unfold parseUint
  have : ds.isEmpty = false := by
    cases ds with
    | nil => exact absurd rfl hne
    | cons _ _ => rfl
  simp only [this, Bool.false_eq_true, if_false]
  exact parseUintLoop_digits ds 0 hd hv

theorem scanRecord_found (pre ds rest : List Char)
    (hmark : contains (pre ++ partitionIDKey ++ ds ++ ' ' :: rest) fixMarker = true)
    (hfirst : ∀ k, k < pre.length →
      partitionIDKey.isPrefixOf ((pre ++ partitionIDKey ++ ds ++ ' ' :: rest).drop k) = false)
    (hne : ds ≠ []) (hd : ∀ c ∈ ds, c.isDigit = true) (hv : decimalValue ds < 2 ^ 64) :
    scanRecord ⟨⟨pre ++ partitionIDKey ++ ds ++ ' ' :: rest⟩⟩ = .found (decimalValue ds) := by
  unfold scanRecord
  simp only [hmark, if_true]
  have hassoc : pre ++ partitionIDKey ++ ds ++ ' ' :: rest
      = pre ++ partitionIDKey ++ (ds ++ ' ' :: rest) := by simp
  have hcut : cut partitionIDKey (pre ++ partitionIDKey ++ ds ++ ' ' :: rest)
      = some (pre, ds ++ ' ' :: rest) := by
    rw [hassoc]
    apply cut_first
    · decide
    · intro k hk
      rw [← hassoc]
      exact hfirst k hk
  obtain ⟨m, hm⟩ : ∃ m, (pre ++ partitionIDKey ++ ds ++ ' ' :: rest).length = m + 1 :=
    ⟨pre.length + partitionIDKey.length + ds.length + rest.length, by simp; omega⟩
  have hnp : ∀ c ∈ ds ++ [' '], c ≠ 'p' := by
    intro c hc
    rcases List.mem_append.1 hc with h | h
    · exact isDigit_ne_p c (hd c h)
    · rw [List.mem_singleton.1 h]
      decide
  obtain ⟨y, hy⟩ := splitLoop_key_head (ds ++ [' ']) rest m hnp
  have hsplit : (split (pre ++ partitionIDKey ++ ds ++ ' ' :: rest) partitionIDKey)[1]?
      = some (ds ++ ' ' :: y) := by
    unfold split
    rw [hm, splitLoop, hcut]
    simp only [List.getElem?_cons_succ]
    have : ds ++ ' ' :: rest = (ds ++ [' ']) ++ rest := by simp
    rw [this, hy]
    simp
  rw [hsplit]
  simp only
  rw [split_space_head ds y (fun c hc => isDigit_ne_space c (hd c hc))]
  simp only
  rw [parseUint_digits ds hne hd hv]

theorem scanRecords_mem (rs : List AlarmRecord) (ids0 ids : IdsMap)
    (h : scanRecords rs ids0 = some ids) (p : Nat) :
    p ∈ ids ↔ p ∈ ids0 ∨ ∃ r ∈ rs, scanRecord r = .found p := by
  induction rs generalizing ids0 with
  | nil =>
    simp only [scanRecords, Option.some.injEq] at h
    subst h
    simp
  | cons r rs ih =>
    rw [scanRecords] at h
    cases hr : scanRecord r with
    | notMarked =>
      rw [hr] at h
      simp only at h
      rw [ih ids0 h]
      simp [hr]
    | panicked =>
      rw [hr] at h
      simp at h
    | parseFailed e =>
      rw [hr] at h
      simp only at h
      rw [ih ids0 h]
      simp [hr]
    | found q =>
      rw [hr] at h
      simp only at h
      rw [ih _ h]
      simp only [List.mem_insert_iff, List.mem_cons, exists_eq_or_imp, hr, ScanStep.found.injEq]
      constructor
      · rintro (h1 | h1)
        · rcases h1 with h1 | h1
          · exact Or.inr (Or.inl h1.symm)
          · exact Or.inl h1
        · exact Or.inr (Or.inr h1)
      · rintro (h1 | h1 | h1)
        · exact Or.inl (Or.inr h1)
        · exact Or.inl (Or.inl h1.symm)
        · exact Or.inr h1

theorem scanRecords_completes (rs : List AlarmRecord) (ids0 : IdsMap)
    (h : ∀ r ∈ rs, scanRecord r ≠ .panicked) : ∃ ids, scanRecords rs ids0 = some ids := by
  induction rs generalizing ids0 with
  | nil => exact ⟨ids0, rfl⟩
  | cons r rs ih =>
    have hr : scanRecord r ≠ .panicked := h r (by simp)
    have ih' := fun ids1 => ih ids1 (fun q hq => h q (by simp [hq]))
    rw [scanRecords]
    cases hs : scanRecord r with
    | notMarked => exact ih' ids0
    | panicked => exact absurd hs hr
    | parseFailed e => exact ih' ids0
    | found q => exact ih' _

theorem scanRecord_found_marked (r : AlarmRecord) (p : Nat) (h : scanRecord r = .found p) :
    contains r.Content.data fixMarker = true := by
  unfold scanRecord at h
  by_cases hc : contains r.Content.data fixMarker = true
  · exact hc
  · simp [hc] at h

/-- What the scan does when no record makes the loop body panic:
(1) a record whose content contains the marker and in which the first
`partitionID:` is followed by a non-empty string of decimal digits denoting
`n < 2^64` and then a space puts exactly `n` into the candidate set;
(2) a record without the marker leaves the candidate set unchanged;
(3) the scan of a list of records none of which makes the loop body panic ends,
and its candidate set holds exactly the identifiers extracted from the marker
records. -/
theorem scan_extracts_partition_ids :
    (∀ (pre ds rest : List Char) (n : Nat) (ids : IdsMap),
      contains (pre ++ partitionIDKey ++ ds ++ ' ' :: rest) fixMarker = true →
      (∀ k, k < pre.length →
        partitionIDKey.isPrefixOf
          ((pre ++ partitionIDKey ++ ds ++ ' ' :: rest).drop k) = false) →
      ds ≠ [] → (∀ c ∈ ds, c.isDigit = true) → decimalValue ds = n → n < 2 ^ 64 →
      scanRecords [⟨⟨pre ++ partitionIDKey ++ ds ++ ' ' :: rest⟩⟩] ids
        = some (ids.insert n)) ∧
    (∀ (r : AlarmRecord) (ids : IdsMap),
      contains r.Content.data fixMarker = false → scanRecords [r] ids = some ids) ∧
    (∀ (rs : List AlarmRecord), (∀ r ∈ rs, scanRecord r ≠ .panicked) →
      ∃ ids, scanRecords rs [] = some ids ∧
        ∀ p, p ∈ ids ↔
          ∃ r ∈ rs, contains r.Content.data fixMarker = true ∧ scanRecord r = .found p) := by
  refine ⟨?_, ?_, ?_⟩
  · intro pre ds rest n ids hmark hfirst hne hd hval hlt
    subst hval
    rw [scanRecords, scanRecord_found pre ds rest hmark hfirst hne hd hlt]
    rfl
  · intro r ids hr
    simp [scanRecords, scanRecord, hr]
  · intro rs hrs
    obtain ⟨ids, h⟩ := scanRecords_completes rs [] hrs
    refine ⟨ids, h, fun p => ?_⟩
    rw [scanRecords_mem rs [] ids h p]
    constructor
    · rintro (h1 | ⟨r, hr, hf⟩)
      · simp at h1
      · exact ⟨r, hr, scanRecord_found_marked r p hf, hf⟩
    · rintro ⟨r, hr, _, hf⟩
      exact Or.inr ⟨r, hr, hf⟩

/-- The content `... FIX DataPartition replicaNum ... partitionID:12345 more text`,
scanned alone, yields 12345. -/
theorem scan_extracts_partition_ids_witness :
    scanRecords [⟨"... FIX DataPartition replicaNum ... partitionID:12345 more text"⟩] []
      = some [12345] :=
  scan_extracts_partition_ids.1 "... FIX DataPartition replicaNum ... ".data "12345".data
    "more text".data 12345 [] (by decide) (by decide) (by decide) (by decide) (by decide)
    (by decide)

/-- C3, at the failing input: the record `alarmOne` contains the marker and
`partitionID:1` followed by a space, and scanned alone it puts 1 into the
candidate set; scanned after the marker record `alarmNoKey`, which has no
`partitionID:`, it is never reached: `strings.Split(...)[1]` panics on
`alarmNoKey`, there is no candidate set, and the cycle ends in `recover` right
after the alarm query. -/
theorem scan_loses_record_after_panic :
    scanRecord alarmOne = .found 1 ∧
      scanRecords [alarmOne] [] = some [1] ∧
      scanRecords [alarmNoKey, alarmOne] [] = none ∧
      (doFixBadDataPartition (alarmWorld [alarmNoKey, alarmOne]) ()).2
        = [.GetAlarmRecords, .Recovered] := by
  decide

/-- C9, at the failing input: a marker record without `partitionID:` makes
`strings.Split(...)[1]` panic, so the scan of a list that holds it yields no
candidate set at all, although the records before and after it are well formed
(and a record with a non-numeric identifier alone is skipped). -/
theorem scan_panics_without_key :
    scanRecord alarmOne = .found 1 ∧ scanRecord alarmTwo = .found 2 ∧
      scanRecord alarmNoKey = .panicked ∧
      scanRecords [alarmOne, alarmNoKey, alarmTwo] [] = none ∧
      scanRecords [alarmOne, alarmBadNumber, alarmTwo] [] = some [2, 1] := by
  decide

/-! ## Properties of the repair cycle -/

/-- C10, at the failing input: partition `1` is confirmed bad and its extra host
`dn2` is the only data node of its zone, so `rand.Intn(0)` panics in its first
probe.  When `range idsMap` yields `1` before `2`, the cycle ends in `recover`
and partition `2` is never verified; when it yields `2` first, partition `2` is
verified and repaired by the same code. -/
theorem doFixBadDataPartition_panic_ends_cycle :
    (doFixBadDataPartition (twoZoneWorld (fun _ => [1, 2])) ()).2
      = [.GetAlarmRecords, .GetTopology,
         .GetDataPartition 1, .Sleep 20, .GetDataPartition 1,
         .GetDataNode "dn2:6000" (some ⟨"dn2:6000", "z1", false, 0⟩),
         .Recovered] ∧
    (doFixBadDataPartition (twoZoneWorld (fun _ => [2, 1])) ()).2
      = [.GetAlarmRecords, .GetTopology,
         .GetDataPartition 2, .Sleep 20, .GetDataPartition 2,
         .GetDataNode "dn5:6000" (some ⟨"dn5:6000", "z2", false, 0⟩),
         .GetDataNode "dn6:6000" (some dnSix),
         .AddDataLearner 2 "dn6:6000" true 90,
         .WarningBySpecialUMPKey (fixedMessage 2 "dn6:6000"),
         .GetDataPartition 1, .Sleep 20, .GetDataPartition 1,
         .GetDataNode "dn2:6000" (some ⟨"dn2:6000", "z1", false, 0⟩),
         .Recovered] := by
  decide!

end Cfs

namespace Drive

/-! ## Properties of the multipart handlers -/

/-- C4, as the code has it: for each of the five operations, a request whose
arguments parse and whose path fails to clean makes no external call; for
initiate, complete, list parts and abort, and for upload part with a non-zero part
number, it is answered with the cleaning error. -/
theorem unclean_path_rejected (d : DriveNode) (err : Error) :
    (∀ (c : Context ArgsMPUploads) (args : ArgsMPUploads),
      c.ParseArgs = .ok args → args.UploadID = "" → d.Clean args.Path = .error err →
      handleMultipartUploads d c = (.RespondError (some err), [])) ∧
    (∀ (c : Context ArgsMPUploads) (args : ArgsMPUploads),
      c.ParseArgs = .ok args → args.UploadID ≠ "" → d.Clean args.Path = .error err →
      handleMultipartUploads d c = (.RespondError (some err), [])) ∧
    (∀ (c : Context ArgsMPUpload) (args : ArgsMPUpload),
      c.ParseArgs = .ok args → d.Clean args.Path = .error err →
      (handleMultipartPart d c).2 = [] ∧
      (args.PartNumber ≠ 0 → (handleMultipartPart d c).1 = .RespondError (some err))) ∧
    (∀ (c : Context ArgsMPList) (args : ArgsMPList),
      c.ParseArgs = .ok args → d.Clean args.Path = .error err →
      handleMultipartList d c = (.RespondError (some err), [])) ∧
    (∀ (c : Context ArgsMPAbort) (args : ArgsMPAbort),
      c.ParseArgs = .ok args → d.Clean args.Path = .error err →
      handleMultipartAbort d c = (.RespondError (some err), [])) := by
  refine ⟨?_, ?_, ?_, ?_, ?_⟩
  · intro c args hp _ hc
    simp [handleMultipartUploads, hp, hc]
  · intro c args hp _ hc
    simp [handleMultipartUploads, hp, hc]
  · intro c args hp hc
    refine ⟨?_, ?_⟩
    · by_cases hn : args.PartNumber = 0
      · simp [handleMultipartPart, hp, hn]
      · simp [handleMultipartPart, hp, hn, hc]
    · intro hn
      simp [handleMultipartPart, hp, hn, hc]
  · intro c args hp hc
    simp [handleMultipartList, hp, hc]
  · intro c args hp hc
    simp [handleMultipartAbort, hp, hc]

/-- C4, witness: the five operations on the uncleanable path `../x`. -/
theorem unclean_path_rejected_witness :
    handleMultipartUploads testDrive (request ⟨"../x", "", 0⟩)
      = (.RespondError (some (.other "invalid path")), []) ∧
    handleMultipartUploads testDrive (request ⟨"../x", "upload-1", 0⟩)
      = (.RespondError (some (.other "invalid path")), []) ∧
    ((handleMultipartPart testDrive (request ⟨"../x", "upload-1", 1⟩)).2 = [] ∧
      (handleMultipartPart testDrive (request ⟨"../x", "upload-1", 1⟩)).1
        = .RespondError (some (.other "invalid path"))) ∧
    handleMultipartList testDrive (request ⟨"../x", "upload-1", 0, 0⟩)
      = (.RespondError (some (.other "invalid path")), []) ∧
    handleMultipartAbort testDrive (request ⟨"../x", "upload-1"⟩)
      = (.RespondError (some (.other "invalid path")), []) :=
  ⟨(unclean_path_rejected testDrive (.other "invalid path")).1 _ ⟨"../x", "", 0⟩ rfl rfl rfl,
   (unclean_path_rejected testDrive (.other "invalid path")).2.1 _ ⟨"../x", "upload-1", 0⟩
     rfl (by decide) rfl,
   ⟨((unclean_path_rejected testDrive (.other "invalid path")).2.2.1 _
       ⟨"../x", "upload-1", 1⟩ rfl rfl).1,
    ((unclean_path_rejected testDrive (.other "invalid path")).2.2.1 _
       ⟨"../x", "upload-1", 1⟩ rfl rfl).2 (by decide)⟩,
   (unclean_path_rejected testDrive (.other "invalid path")).2.2.2.1 _
     ⟨"../x", "upload-1", 0, 0⟩ rfl rfl,
   (unclean_path_rejected testDrive (.other "invalid path")).2.2.2.2 _ ⟨"../x", "upload-1"⟩
     rfl rfl⟩

/-- C4, counterexample: upload part with part number 0 on the uncleanable path
`../x` is answered with the part-number error, not with the cleaning error. -/
theorem unclean_path_part_zero :
    testDrive.Clean "../x" = .error (.other "invalid path") ∧
    handleMultipartPart testDrive (request ⟨"../x", "upload-1", 0⟩)
      = (.RespondError (some (.Extend .ErrBadRequest "partNumber is 0")), []) ∧
    handleMultipartPart testDrive (request ⟨"../x", "upload-1", 0⟩)
      ≠ (.RespondError (some (.other "invalid path")), []) := by
  refine ⟨rfl, ?_, ?_⟩ <;> decide

/-- C7: an upload-part request whose arguments parse is answered, when the part
number is 0, with `ErrBadRequest` extended by `partNumber is 0` and without any
external call, whatever the path is; when the part number is between 1 and 65535
the request passes this check and is decided by path cleaning: a cleaning error
is the answer (no external call), and a clean path leads on to root and volume
resolution as the first external call. -/
theorem handleMultipartPart_partNumber (d : DriveNode) (c : Context ArgsMPUpload)
    (args : ArgsMPUpload) (hparse : c.ParseArgs = .ok args) :
    (args.PartNumber = 0 →
      handleMultipartPart d c
        = (.RespondError (some (.Extend .ErrBadRequest "partNumber is 0")), [])) ∧
    (1 ≤ args.PartNumber → args.PartNumber ≤ 65535 →
      (∀ err, d.Clean args.Path = .error err →
        handleMultipartPart d c = (.RespondError (some err), [])) ∧
      (∀ cleaned, d.Clean args.Path = .ok cleaned →
        (handleMultipartPart d c).2.head? = some (.getRootInoAndVolume c.userID))) := by
  refine ⟨?_, ?_⟩
  · intro h0
    simp [handleMultipartPart, hparse, h0]
  · intro h1 _
    have hn : args.PartNumber ≠ 0 := by omega
    refine ⟨?_, ?_⟩
    · intro err hc
      simp [handleMultipartPart, hparse, hn, hc]
    · intro cleaned hc
      simp only [handleMultipartPart, hparse, hn, hc, if_false]
      repeat' split
      all_goals rfl

/-- C7, witness: part number 0 on a clean and on an uncleanable path, and part
numbers 1 and 65535. -/
theorem handleMultipartPart_partNumber_witness :
    (handleMultipartPart testDrive (request ⟨"a/b", "upload-1", 0⟩)
        = (.RespondError (some (.Extend .ErrBadRequest "partNumber is 0")), []) ∧
      handleMultipartPart testDrive (request ⟨"../x", "upload-1", 0⟩)
        = (.RespondError (some (.Extend .ErrBadRequest "partNumber is 0")), [])) ∧
    (handleMultipartPart testDrive (request ⟨"a/b", "upload-1", 1⟩)).2.head?
      = some (.getRootInoAndVolume "u1") ∧
    (handleMultipartPart testDrive (request ⟨"a/b", "upload-1", 65535⟩)).2.head?
      = some (.getRootInoAndVolume "u1") :=
  ⟨⟨(handleMultipartPart_partNumber testDrive (request ⟨"a/b", "upload-1", 0⟩) _ rfl).1 rfl,
    (handleMultipartPart_partNumber testDrive (request ⟨"../x", "upload-1", 0⟩) _ rfl).1 rfl⟩,
   ((handleMultipartPart_partNumber testDrive (request ⟨"a/b", "upload-1", 1⟩) _ rfl).2
      (by decide) (by decide)).2 "a/b" rfl,
   ((handleMultipartPart_partNumber testDrive (request ⟨"a/b", "upload-1", 65535⟩) _ rfl).2
      (by decide) (by decide)).2 "a/b" rfl⟩

theorem toUint64_of_pos (n : Int) (h0 : 0 < n) (h1 : n < 2 ^ 63) :
    (toUint64 n : Int) = n := by
  unfold toUint64
  have hm : n % 2 ^ 64 = n := Int.emod_eq_of_lt (le_of_lt h0) (by omega)
  rw [hm]
  exact Int.toNat_of_nonneg (le_of_lt h0)

/-- C8: every `ListMultiPart` call made for a list-parts request whose arguments
parse carries page size 400 when the caller's count is `<= 0` and the caller's
count when it is `> 0` (a Go `int`, so below `2^63`); the value passed is
positive. -/
theorem handleMultipartList_page_size (d : DriveNode) (c : Context ArgsMPList)
    (args : ArgsMPList) (hparse : c.ParseArgs = .ok args) (hint : args.Count < 2 ^ 63)
    (path uploadID : String) (count marker : Nat)
    (hcall : Call.ListMultiPart path uploadID count marker ∈ (handleMultipartList d c).2) :
    (args.Count ≤ 0 → count = 400) ∧
    (0 < args.Count → (count : Int) = args.Count) ∧
    0 < count := by
  have hcount : count = toUint64 (if args.Count ≤ 0 then 400 else args.Count) := by
    simp only [handleMultipartList, hparse] at hcall
    repeat' split at hcall
    all_goals simp at hcall
    all_goals
      first
      | (rw [if_pos (by assumption)]; exact hcall.2.2.1)
      | (rw [if_neg (by assumption)]; exact hcall.2.2.1)
  by_cases hle : args.Count ≤ 0
  · have h400 : count = 400 := by
      rw [hcount, if_pos hle]
      rfl
    exact ⟨fun _ => h400, fun hpos => absurd hle (not_le.2 hpos), by omega⟩
  · have hpos : 0 < args.Count := not_le.1 hle
    have hc : (count : Int) = args.Count := by
      rw [hcount, if_neg hle]
      exact toUint64_of_pos _ hpos hint
    exact ⟨fun h => absurd h hle, fun _ => hc, by omega⟩

/-- C8, witness: count `-100` reaches the volume engine as page size 400. -/
theorem handleMultipartList_page_size_witness :
    Call.ListMultiPart "/u1a/b" "upload-1" 400 0
        ∈ (handleMultipartList testDrive (request ⟨"a/b", "upload-1", 0, -100⟩)).2 ∧
      (0 : Nat) < 400 :=
  ⟨by decide,
   (handleMultipartList_page_size testDrive (request ⟨"a/b", "upload-1", 0, -100⟩)
      ⟨"a/b", "upload-1", 0, -100⟩ rfl (by decide) "/u1a/b" "upload-1" 400 0
      (by decide)).2.2⟩

end Drive
